import Mathlib

/-!
Verification of the spoon-git frontend chat client and, where the backend
source is absent, spec-modelled components of the agent core.

Part 1: shallow embedding of `src/frontend/src/context/chat-context.tsx`.
The React component state (`chatHistory`, `isLoading`, `isError`) is made
explicit; `sendMessage` becomes a pure function of the prior history and
of the outcome of the single `fetch` call it performs.
-/

namespace ChatContext

/-- The `role` field of a `ChatMessage` in chat-context.tsx:
`"user" | "assistant"`. -/
inductive Role where
  | user
  | assistant
deriving DecidableEq, Repr

/-- `ChatMessage` from chat-context.tsx: `{role, content}`. -/
structure ChatMessage where
  role : Role
  content : String
deriving DecidableEq, Repr

/-- The JSON body of a response to the `/api/ask_repo` fetch, as the code
reads it: an optional `error` field and the `agent_response` field
(`response.error`, `response.agent_response`). A missing `error` field is
`none`. -/
structure ResponseBody where
  error : Option String
  agent_response : String
deriving DecidableEq, Repr

/-- JavaScript truthiness of the optional `error` field: `undefined`
(absent) and the empty string are falsy, every other string is truthy. -/
def truthyError : Option String → Bool
  | none => false
  | some s => !(s == "")

/-- The possible outcomes of the `await fetch(...)` / `await res.json()`
pair in `sendMessage`: either the network or JSON parsing throws, or a
response arrives with `res.ok` (status 2xx) and a parsed JSON body. -/
inductive FetchOutcome where
  | netFailure
  | response (ok : Bool) (body : ResponseBody)
deriving DecidableEq, Repr

/-- The HTTP request issued by `sendMessage` (chat-context.tsx lines
32-45): method, URL, and the JSON body
`{user_prompt, repo_name, chat_history}`. -/
structure AskRepoRequest where
  method : String
  url : String
  user_prompt : String
  repo_name : String
  chat_history : List ChatMessage
deriving DecidableEq, Repr

/-- The component state and return value after one `sendMessage` call:
the chat history, the `isLoading` and `isError` flags, the `error_case`
return value, and the request that was issued. -/
structure SendResult where
  history : List ChatMessage
  isLoading : Bool
  isError : Bool
  errorCase : Bool
  request : AskRepoRequest
deriving DecidableEq, Repr

/-- Embedding of `sendMessage(repo, query)` from chat-context.tsx lines
25-71.  `prev` is the `chatHistory` state at the time of the call (the
value captured by the component's render closure); `backendUrl` is the
`VITE_BACKEND_URL` environment value; `outcome` is the result of the
single fetch.  The body follows the source line by line:
`setIsError(false)`, `setIsLoading(true)`, append the user turn, fetch
with body `{user_prompt: query, repo_name: repo, chat_history}` (the
closure variable `chatHistory`, i.e. `prev`, not the updated list), throw
on `!res.ok`, throw on truthy `response.error`, otherwise append the
assistant turn; the catch block sets `isError` and `error_case`, the
finally block resets `isLoading`. -/
def sendMessage (backendUrl repo query : String) (prev : List ChatMessage)
    (outcome : FetchOutcome) : SendResult :=
  let req : AskRepoRequest :=
    { method := "POST"
      url := backendUrl ++ "/api/ask_repo"
      user_prompt := query
      repo_name := repo
      chat_history := prev }
  let afterUser := prev ++ [{ role := Role.user, content := query }]
  match outcome with
  | FetchOutcome.netFailure =>
      { history := afterUser, isLoading := false, isError := true,
        errorCase := true, request := req }
  | FetchOutcome.response ok body =>
      if !ok then
        { history := afterUser, isLoading := false, isError := true,
          errorCase := true, request := req }
      else if truthyError body.error then
        { history := afterUser, isLoading := false, isError := true,
          errorCase := true, request := req }
      else
        { history := afterUser ++ [{ role := Role.assistant, content := body.agent_response }],
          isLoading := false, isError := false,
          errorCase := false, request := req }

/-- `handleSubmit` from user-input.tsx lines 153-158: calls
`sendMessage(selectedRepo, inputValue)` and clears the text box only when
it returned `false` (success).  Returns the send result paired with the
new `inputValue`. -/
def handleSubmit (backendUrl selectedRepo inputValue : String)
    (prev : List ChatMessage) (outcome : FetchOutcome) :
    SendResult × String :=
  let r := sendMessage backendUrl selectedRepo inputValue prev outcome
  (r, if r.errorCase then inputValue else "")

/-- Classification of a fetch outcome as a failure, read off the three
failure paths of `sendMessage`: the fetch or parse throws, `res.ok` is
false (non-2xx status), or the body's `error` field is truthy. -/
def sendFails : FetchOutcome → Bool
  | FetchOutcome.netFailure => true
  | FetchOutcome.response ok body => !ok || truthyError body.error

end ChatContext

/-!
Part 2: shallow embedding of the repository selector in
`src/frontend/src/components/user-input.tsx`: the initial localStorage
load (lines 70-112) and the `addRepo` / `setRepo` / `removeRepo`
operations (lines 121-151).  The relevant component state is
`{repos, selectedRepo, newRepo}`.
-/

namespace UserInput

/-- `DEFAULT_REPOS` from user-input.tsx line 20. -/
def DEFAULT_REPOS : List String := ["calcom/cal.com", "golang/go", "rust-lang/rust"]

/-- `StoredShape` from user-input.tsx lines 22-25: the parsed localStorage
value, with an optional `selected` field. -/
structure StoredShape where
  repos : List String
  selected : Option String
deriving DecidableEq, Repr

/-- What the initial-load effect can find in localStorage: no stored
value (`raw` is null), a value that throws on `JSON.parse` or fails the
shape check (`parsed` falsy or `parsed.repos` not an array), or a parsed
`StoredShape`. -/
inductive StoredRaw where
  | absent
  | malformed
  | stored (shape : StoredShape)
deriving DecidableEq, Repr

/-- The selector's component state: the `repos` list, the selected repo,
and the add-repository text input `newRepo`. -/
structure UIState where
  repos : List String
  selectedRepo : String
  newRepo : String
deriving DecidableEq, Repr

/-- The state both default branches of the load effect produce:
`setRepos(DEFAULT_REPOS); setSelectedRepo(DEFAULT_REPOS[0])`. -/
def defaultState : UIState :=
  { repos := DEFAULT_REPOS, selectedRepo := DEFAULT_REPOS.headD "", newRepo := "" }

/-- The initial localStorage load (user-input.tsx lines 70-112).  With no
stored value, a malformed value, or an empty stored `repos` array, the
defaults are installed.  Otherwise the stored repos are used and the
selection is the stored `selected` when it is truthy and is in the stored
list (`parsed.selected && parsed.repos.includes(parsed.selected)`), else
the first stored repo. -/
def loadInitial : StoredRaw → UIState
  | StoredRaw.absent => defaultState
  | StoredRaw.malformed => defaultState
  | StoredRaw.stored shape =>
      if shape.repos.isEmpty then defaultState
      else
        { repos := shape.repos
          selectedRepo :=
            match shape.selected with
            | some s =>
                if !(s == "") && shape.repos.contains s then s else shape.repos.headD ""
            | none => shape.repos.headD ""
          newRepo := "" }

/-- JavaScript `String.prototype.trim`, as called on `repoName` in
`addRepo`: strips leading and trailing whitespace.  Written structurally
over the string's character list so that it evaluates by kernel
reduction. -/
def jsTrim (s : String) : String :=
  ⟨((s.data.dropWhile Char.isWhitespace).reverse.dropWhile Char.isWhitespace).reverse⟩

/-- `addRepo(repoName)` from user-input.tsx lines 121-133: trim the name;
reject (leaving all state unchanged) when the trimmed name is empty,
already listed, or has no `/` (the source's `trimmed.includes("/")` with
a one-character needle is membership of `'/'` in the character list);
otherwise clear the input, append the trimmed name, and select it. -/
def addRepo (s : UIState) (repoName : String) : UIState :=
  let trimmed := jsTrim repoName
  if trimmed == "" || s.repos.contains trimmed || !(trimmed.data.contains '/') then s
  else { repos := s.repos ++ [trimmed], selectedRepo := trimmed, newRepo := "" }

/-- `setRepo(repoName)` from user-input.tsx lines 135-137. -/
def setRepo (s : UIState) (repoName : String) : UIState :=
  { s with selectedRepo := repoName }

/-- `removeRepo(repoName)` from user-input.tsx lines 139-151: filter the
name out; if it was selected, select the first remaining repo, or the
empty string when none remain. -/
def removeRepo (s : UIState) (repoName : String) : UIState :=
  let next := s.repos.filter (fun r => !(r == repoName))
  { s with
    repos := next
    selectedRepo := if s.selectedRepo == repoName then next.headD "" else s.selectedRepo }

/-- The selector invariant: the selected repo is a listed repo, or the
empty string when the list is empty. -/
def repoInv (s : UIState) : Prop :=
  s.selectedRepo ∈ s.repos ∨ (s.repos = [] ∧ s.selectedRepo = "")

instance (s : UIState) : Decidable (repoInv s) := by
  unfold repoInv; infer_instance

end UserInput

/-!
Part 3: the agent core.  The backend source (`api.py`, `main.py`) is not
among the provided source files -- only its readme is -- so the components
below are modelled from the spec and the claims about them are settled
against these models.
-/

namespace AgentCore

/-- Modelled from the spec: the `status` field of `AgentState` (spec §3);
the backend `main.py` carrying the loop is missing from the sources. -/
inductive Status where
  | Running
  | Finished
  | Failed
deriving DecidableEq, Repr

/-- Modelled from the spec: a `ToolInvocation` `{tool name, arguments}`
proposed by the LLM Gateway (spec §3). -/
structure ToolInvocation where
  tool : String
  args : String
deriving DecidableEq, Repr

/-- Modelled from the spec: a `ToolResult`
`{success, payload, truncated}` (spec §3). -/
structure ToolResult where
  success : Bool
  payload : String
  truncated : Bool
deriving DecidableEq, Repr

/-- Modelled from the spec: the per-request `AgentState`
`{iteration count, scratchpad, status}` (spec §3). -/
structure AgentState where
  iteration : Nat
  scratchpad : List (ToolInvocation × ToolResult)
  status : Status
deriving DecidableEq, Repr

/-- Modelled from the spec: the LLM Gateway's contract (spec §4.5): it
returns exactly one of a final answer or a tool call. -/
inductive LLMAction where
  | finalAnswer (text : String)
  | toolCall (inv : ToolInvocation)

/-- Modelled from the spec: the synthesized
`ToolResult{success:false, error:InvalidToolCall}` for an invalid
invocation (spec §4.1 step 4). -/
def invalidToolResult : ToolResult :=
  { success := false, payload := "InvalidToolCall", truncated := false }

/-- Modelled from the spec: one iteration of the Reasoning Loop (spec
§4.1).  A terminal state is returned unchanged (no tool call is issued);
otherwise the gateway's decision is a final answer (transition to
`Finished`) or a tool invocation, which is validated, executed (or
replaced by the synthesized invalid-call result), appended to the
scratchpad with the iteration count incremented, and checked against the
iteration cap (`MAX_ITER` reached without a final answer transitions to
`Failed`). -/
def step (gateway : AgentState → LLMAction) (validate : ToolInvocation → Bool)
    (exec : ToolInvocation → ToolResult) (maxIter : Nat) (st : AgentState) : AgentState :=
  if st.status ≠ Status.Running then st
  else
    match gateway st with
    | LLMAction.finalAnswer _ => { st with status := Status.Finished }
    | LLMAction.toolCall inv =>
        let result := if validate inv then exec inv else invalidToolResult
        let st' := { st with
          scratchpad := st.scratchpad ++ [(inv, result)]
          iteration := st.iteration + 1 }
        if maxIter ≤ st'.iteration then { st' with status := Status.Failed } else st'

/-- Modelled from the spec: the Reasoning Loop iterated until a terminal
state; the fuel argument bounds the number of `step`s, and the cap logic
in `step` makes `maxIter` steps always sufficient. -/
def run (gateway : AgentState → LLMAction) (validate : ToolInvocation → Bool)
    (exec : ToolInvocation → ToolResult) (maxIter : Nat) :
    Nat → AgentState → AgentState
  | 0, st => st
  | fuel + 1, st =>
      if st.status ≠ Status.Running then st
      else run gateway validate exec maxIter fuel (step gateway validate exec maxIter st)

/-- Modelled from the spec: the fresh `AgentState` the Request Handler
builds per request (spec §2): initial status `Running`, iteration 0,
empty scratchpad. -/
def initialState : AgentState :=
  { iteration := 0, scratchpad := [], status := Status.Running }

/-- Modelled from the spec: one full Reasoning Loop execution from the
fresh state. -/
def runLoop (gateway : AgentState → LLMAction) (validate : ToolInvocation → Bool)
    (exec : ToolInvocation → ToolResult) (maxIter : Nat) : AgentState :=
  run gateway validate exec maxIter maxIter initialState

/-- The loop invariant: the iteration count is within the cap, strictly
so while the loop is still running. -/
def loopInv (maxIter : Nat) (st : AgentState) : Prop :=
  st.iteration ≤ maxIter ∧ (st.status = Status.Running → st.iteration < maxIter)

end AgentCore

namespace Budget

/-- Modelled from the spec: the Context Budget Manager's token-count
estimate per unit of text (spec §4.4, "approximate, character-count-based
heuristic"); the backend source carrying it is missing from src/. -/
def estimate (s : String) : Nat := s.length / 4 + 1

/-- Modelled from the spec: the running token estimate of a sequence of
texts. -/
def totalEstimate (ts : List String) : Nat := (ts.map estimate).sum

/-- Modelled from the spec: truncation of the conversation history when
over budget, dropping the OLDEST turns first and keeping the most recent
turns whole (spec §4.4 truncation order, item 1). -/
def truncateHistory (budget : Nat) : List String → List String
  | [] => []
  | t :: rest =>
      if totalEstimate (t :: rest) ≤ budget then t :: rest
      else truncateHistory budget rest

/-- Modelled from the spec: the `Budget` attributes
`{ceiling, reserve-for-answer}` (spec §3). -/
structure PromptBudget where
  ceiling : Nat
  reserve : Nat
deriving DecidableEq, Repr

/-- Modelled from the spec: prompt assembly before an LLM Gateway call
(spec §4.1 step 1, §4.4): `base` is the token estimate of the parts that
are never truncated (system instructions, tool catalog, current user
question), and the history is truncated to the remaining budget.  Returns
`used`, the token estimate of the assembled prompt. -/
def assemble (b : PromptBudget) (base : Nat) (history : List String) : Nat :=
  base + totalEstimate (truncateHistory (b.ceiling - b.reserve - base) history)

end Budget

namespace SubdirTree

mutual

/-- Modelled from the spec: the file-system subtree the subdir-tree tool
renders (spec §4.2); the backend tool source is missing from src/.  A
node is a file or directory name with its children. -/
inductive FsTree where
  | node (name : String) (children : FsForest)

/-- Modelled from the spec: a sequence of sibling subtrees. -/
inductive FsForest where
  | leaf
  | cons (t : FsTree) (ts : FsForest)

end

mutual

/-- Total number of nodes in a subtree. -/
def treeSize : FsTree → Nat
  | FsTree.node _ c => 1 + forestSize c

/-- Total number of nodes in a forest. -/
def forestSize : FsForest → Nat
  | FsForest.leaf => 0
  | FsForest.cons t ts => treeSize t + forestSize ts

end

/-- The outcome of a budget-bounded traversal: the rendered node lines,
the unspent node budget, and whether the guard fired. -/
structure RenderOut where
  lines : List String
  remaining : Nat
  truncated : Bool
deriving DecidableEq, Repr

mutual

/-- Modelled from the spec: the node-count-bounded traversal of one
subtree (spec §4.2 subdir-tree guard).  Rendering a node spends one unit
of budget; when the budget runs out mid-traversal the traversal stops and
the partial result is flagged `truncated`. -/
def renderTree (budget : Nat) : FsTree → RenderOut
  | FsTree.node name c =>
      match budget with
      | 0 => { lines := [], remaining := 0, truncated := true }
      | b + 1 =>
          let r := renderForest b c
          { lines := name :: r.lines, remaining := r.remaining, truncated := r.truncated }

/-- Modelled from the spec: the traversal over sibling subtrees,
threading the remaining budget left to right and stopping at the first
truncation. -/
def renderForest (budget : Nat) : FsForest → RenderOut
  | FsForest.leaf => { lines := [], remaining := budget, truncated := false }
  | FsForest.cons t ts =>
      let r := renderTree budget t
      if r.truncated then { lines := r.lines, remaining := r.remaining, truncated := true }
      else
        let r2 := renderForest r.remaining ts
        { lines := r.lines ++ r2.lines, remaining := r2.remaining, truncated := r2.truncated }

end

/-- The subdir-tree tool's result: a successful partial render rather
than a failure, with the rendered node lines and the truncation flag. -/
structure SubdirResult where
  success : Bool
  lines : List String
  truncated : Bool
deriving DecidableEq, Repr

/-- Modelled from the spec: the subdir-tree tool call on a subtree with a
node-count threshold (spec §4.2): always a successful result carrying the
(possibly partial) tree and the `truncated` flag. -/
def subdirTree (threshold : Nat) (t : FsTree) : SubdirResult :=
  let r := renderTree threshold t
  { success := true, lines := r.lines, truncated := r.truncated }

end SubdirTree


open ChatContext

/-- Helper: the `error_case` value `sendMessage` returns is exactly the
failure classification of the fetch outcome. -/
theorem sendMessage_errorCase_eq (backendUrl repo query : String)
    (prev : List ChatMessage) (o : FetchOutcome) :
    (sendMessage backendUrl repo query prev o).errorCase = sendFails o := by
  cases o with
  | netFailure => rfl
  | response ok body =>
      simp only [sendMessage, sendFails]
      cases ok <;> by_cases h : truthyError body.error = true <;> simp_all

/-- Helper: the final `isError` flag equals the failure classification. -/
theorem sendMessage_isError_eq (backendUrl repo query : String)
    (prev : List ChatMessage) (o : FetchOutcome) :
    (sendMessage backendUrl repo query prev o).isError = sendFails o := by
  cases o with
  | netFailure => rfl
  | response ok body =>
      simp only [sendMessage, sendFails]
      cases ok <;> by_cases h : truthyError body.error = true <;> simp_all

/-- Helper: the `finally` block always resets `isLoading` to false. -/
theorem sendMessage_isLoading_false (backendUrl repo query : String)
    (prev : List ChatMessage) (o : FetchOutcome) :
    (sendMessage backendUrl repo query prev o).isLoading = false := by
  cases o with
  | netFailure => rfl
  | response ok body =>
      simp only [sendMessage]
      cases ok <;> by_cases h : truthyError body.error = true <;> simp_all

/-- Helper: on a failing outcome the history ends with the user turn and
no assistant turn. -/
theorem sendMessage_history_fail (backendUrl repo query : String)
    (prev : List ChatMessage) (o : FetchOutcome) (h : sendFails o = true) :
    (sendMessage backendUrl repo query prev o).history =
      prev ++ [{ role := Role.user, content := query }] := by
  cases o with
  | netFailure => rfl
  | response ok body =>
      simp only [sendFails] at h
      simp only [sendMessage]
      cases ok with
      | false => simp
      | true => simp_all

/-- Helper: on a non-failing outcome the history gains the user turn and
then exactly one assistant turn. -/
theorem sendMessage_history_success (backendUrl repo query : String)
    (prev : List ChatMessage) (o : FetchOutcome) (h : sendFails o = false) :
    ∃ a, (sendMessage backendUrl repo query prev o).history =
      prev ++ [{ role := Role.user, content := query },
               { role := Role.assistant, content := a }] := by
  cases o with
  | netFailure => simp [sendFails] at h
  | response ok body =>
      simp only [sendFails, Bool.or_eq_false_iff] at h
      obtain ⟨hok, herr⟩ := h
      cases ok with
      | false => simp at hok
      | true =>
          refine ⟨body.agent_response, ?_⟩
          simp [sendMessage, herr]

/-- C1: every `sendMessage(repo, query)` call issues a POST to
`/api/ask_repo` whose JSON body is exactly
`{user_prompt: query, repo_name: repo, chat_history: prev}` where `prev`
is the history as it stood before the call (the new user turn is not in
it), and every element of that history has role `user` or `assistant`. -/
theorem C1_request_shape (backendUrl repo query : String)
    (prev : List ChatMessage) (outcome : FetchOutcome) :
    (sendMessage backendUrl repo query prev outcome).request =
      { method := "POST", url := backendUrl ++ "/api/ask_repo",
        user_prompt := query, repo_name := repo, chat_history := prev } ∧
    ((sendMessage backendUrl repo query prev outcome).request.chat_history.all
      (fun m => m.role == Role.user || m.role == Role.assistant)) = true := by
  constructor
  · cases outcome with
    | netFailure => rfl
    | response ok body =>
        simp only [sendMessage]
        cases ok <;> by_cases h : truthyError body.error = true <;> simp [h]
  · cases outcome with
    | netFailure =>
        simp only [sendMessage, List.all_eq_true]
        intro m _
        cases m.role <;> simp
    | response ok body =>
        simp only [sendMessage]
        cases ok <;> by_cases h : truthyError body.error = true <;>
          simp [h, List.all_eq_true] <;> intro m _ <;> cases m.role <;> simp

/-- C2: a 2xx response whose body has no `error` field appends exactly one
assistant turn, whose content is the body's `agent_response`, and
`sendMessage` returns `false`. -/
theorem C2_success (backendUrl repo query : String) (prev : List ChatMessage)
    (body : ResponseBody) (h : body.error = none) :
    (sendMessage backendUrl repo query prev (FetchOutcome.response true body)).history =
      prev ++ [{ role := Role.user, content := query },
               { role := Role.assistant, content := body.agent_response }] ∧
    (sendMessage backendUrl repo query prev (FetchOutcome.response true body)).errorCase = false := by
  simp [sendMessage, truthyError, h]

/-- Witness for C2 at a concrete input. -/
theorem C2_success_witness :
    (sendMessage "http://b" "o/n" "q" [] (FetchOutcome.response true ⟨none, "ans"⟩)).history =
      [{ role := Role.user, content := "q" },
       { role := Role.assistant, content := "ans" }] ∧
    (sendMessage "http://b" "o/n" "q" [] (FetchOutcome.response true ⟨none, "ans"⟩)).errorCase = false :=
  C2_success "http://b" "o/n" "q" [] ⟨none, "ans"⟩ rfl

/-- C3 counterexample: a 2xx response whose body CONTAINS an `error` field
holding the empty string is not treated as a failure: the guard
`if (response.error)` tests JavaScript truthiness, the empty string is
falsy, so `sendMessage` appends an assistant turn and returns `false`,
while the claim requires it to append nothing and return `true`. -/
theorem C3_counterexample :
    (sendMessage "http://b" "o/n" "q" []
        (FetchOutcome.response true ⟨some "", "ans"⟩)).errorCase = false ∧
    (sendMessage "http://b" "o/n" "q" []
        (FetchOutcome.response true ⟨some "", "ans"⟩)).history =
      [{ role := Role.user, content := "q" },
       { role := Role.assistant, content := "ans" }] := by
  constructor <;> rfl

/-- C3 amended: `sendMessage` never lets an error escape: for every
outcome classified as a failure (network/parse failure, non-2xx status,
or a body whose `error` field is TRUTHY, i.e. present and non-empty), it
sets `isError`, resets `isLoading`, appends no assistant turn after the
user turn, and returns `true`; it returns `false` exactly when no such
failure occurred. -/
theorem C3_amended (backendUrl repo query : String)
    (prev : List ChatMessage) (o : FetchOutcome) :
    (sendMessage backendUrl repo query prev o).isLoading = false ∧
    (sendMessage backendUrl repo query prev o).errorCase = sendFails o ∧
    (sendFails o = true →
      (sendMessage backendUrl repo query prev o).isError = true ∧
      (sendMessage backendUrl repo query prev o).history =
        prev ++ [{ role := Role.user, content := query }]) ∧
    (sendFails o = false →
      (sendMessage backendUrl repo query prev o).isError = false) := by
  refine ⟨sendMessage_isLoading_false _ _ _ _ _,
          sendMessage_errorCase_eq _ _ _ _ _, ?_, ?_⟩
  · intro h
    exact ⟨(sendMessage_isError_eq _ _ _ _ _).trans h,
           sendMessage_history_fail _ _ _ _ _ h⟩
  · intro h
    exact (sendMessage_isError_eq _ _ _ _ _).trans h

/-- Witness for the amended C3 at a concrete failing outcome. -/
theorem C3_amended_witness :
    (sendMessage "http://b" "o/n" "q" [] FetchOutcome.netFailure).isLoading = false ∧
    (sendMessage "http://b" "o/n" "q" [] FetchOutcome.netFailure).isError = true ∧
    (sendMessage "http://b" "o/n" "q" [] FetchOutcome.netFailure).history =
      [{ role := Role.user, content := "q" }] ∧
    (sendMessage "http://b" "o/n" "q" [] FetchOutcome.netFailure).errorCase = true := by
  have h := C3_amended "http://b" "o/n" "q" [] FetchOutcome.netFailure
  exact ⟨h.1, (h.2.2.1 rfl).1, (h.2.2.1 rfl).2, h.2.1⟩

/-- C4: the chat history is append-only: whatever the outcome, the history
after `sendMessage` is the prior history extended at the end, first with
the user turn for `query` and then either nothing or exactly one
assistant turn; no existing turn is removed, reordered, or rewritten. -/
theorem C4_append_only (backendUrl repo query : String)
    (prev : List ChatMessage) (o : FetchOutcome) :
    ∃ rest, (sendMessage backendUrl repo query prev o).history =
        prev ++ ({ role := Role.user, content := query } :: rest) ∧
      (rest = [] ∨ ∃ a, rest = [{ role := Role.assistant, content := a }]) := by
  cases hf : sendFails o with
  | true =>
      exact ⟨[], sendMessage_history_fail _ _ _ _ _ hf, Or.inl rfl⟩
  | false =>
      obtain ⟨a, ha⟩ := sendMessage_history_success backendUrl repo query prev o hf
      exact ⟨[{ role := Role.assistant, content := a }], ha, Or.inr ⟨a, rfl⟩⟩

/-- C9: when the request fails, local state is not rolled back: the user
turn stays at the end of the history with no assistant reply after it,
and `handleSubmit` keeps the text box's value; the box is cleared exactly
when `sendMessage` reported success. -/
theorem C9_no_rollback (backendUrl selectedRepo inputValue : String)
    (prev : List ChatMessage) (o : FetchOutcome) :
    ((handleSubmit backendUrl selectedRepo inputValue prev o).2 =
      if sendFails o then inputValue else "") ∧
    (sendFails o = true →
      (handleSubmit backendUrl selectedRepo inputValue prev o).1.history =
        prev ++ [{ role := Role.user, content := inputValue }]) := by
  constructor
  · simp only [handleSubmit, sendMessage_errorCase_eq]
  · intro h
    simp only [handleSubmit]
    exact sendMessage_history_fail _ _ _ _ _ h

/-- Witness for C9 at a concrete failing outcome. -/
theorem C9_no_rollback_witness :
    (handleSubmit "http://b" "o/n" "hello" [] FetchOutcome.netFailure).2 = "hello" ∧
    (handleSubmit "http://b" "o/n" "hello" [] FetchOutcome.netFailure).1.history =
      [{ role := Role.user, content := "hello" }] := by
  have h := C9_no_rollback "http://b" "o/n" "hello" [] FetchOutcome.netFailure
  exact ⟨h.1, h.2 rfl⟩

open UserInput

/-- Helper: `List.contains` on strings is list membership. -/
theorem string_contains_mem {l : List String} {a : String}
    (h : l.contains a = true) : a ∈ l :=
  List.elem_iff.mp h

/-- Helper: the default state satisfies the selector invariant. -/
theorem defaultState_inv : repoInv defaultState := by
  unfold repoInv defaultState DEFAULT_REPOS
  simp

/-- Helper: the state installed by the initial localStorage load satisfies
the selector invariant, for every possible stored value. -/
theorem loadInitial_inv (raw : StoredRaw) : repoInv (loadInitial raw) := by
  cases raw with
  | absent => exact defaultState_inv
  | malformed => exact defaultState_inv
  | stored shape =>
      simp only [loadInitial]
      split
      · exact defaultState_inv
      · rename_i he
        left
        cases hrs : shape.repos with
        | nil => rw [hrs] at he; simp at he
        | cons a as =>
            cases hsel : shape.selected with
            | none => simp [hrs]
            | some s =>
                simp only
                split
                · rename_i hk
                  exact string_contains_mem ((Bool.and_eq_true _ _).mp hk).2
                · simp [hrs]

/-- Helper: `addRepo` preserves the selector invariant. -/
theorem addRepo_inv (s : UIState) (name : String) (hs : repoInv s) :
    repoInv (addRepo s name) := by
  simp only [addRepo]
  split
  · exact hs
  · left
    simp

/-- Helper: `setRepo` preserves the selector invariant when its argument
is a listed repo, which is how the component calls it (the selection list
renders one entry per element of `repos`). -/
theorem setRepo_inv (s : UIState) (r : String) (hr : r ∈ s.repos) :
    repoInv (setRepo s r) :=
  Or.inl hr

/-- Helper: `removeRepo` preserves the selector invariant. -/
theorem removeRepo_inv (s : UIState) (name : String) (hs : repoInv s) :
    repoInv (removeRepo s name) := by
  unfold removeRepo
  by_cases heq : (s.selectedRepo == name) = true
  · cases hn : s.repos.filter (fun r => !(r == name)) with
    | nil => right; simp [heq, hn]
    | cons a as => left; simp [heq, hn]
  · rw [Bool.not_eq_true] at heq
    cases hs with
    | inl hmem =>
        left
        simp only [heq, Bool.false_eq_true, if_false]
        exact List.mem_filter.mpr ⟨hmem, by simp [heq]⟩
    | inr hempty =>
        right
        simp [hempty.1, hempty.2, heq]

/-- C8: the repository selector maintains `selectedRepo ∈ repos` (or
`selectedRepo = ""` with an empty list): it holds after the initial
localStorage load for every stored value, and it is preserved by
`addRepo`, by `setRepo` applied to a listed repo (its only call sites),
and by `removeRepo`. -/
theorem C8_selector_invariant (raw : StoredRaw) (s : UIState) (r name : String)
    (hs : repoInv s) (hr : r ∈ s.repos) :
    repoInv (loadInitial raw) ∧ repoInv (addRepo s name) ∧
    repoInv (setRepo s r) ∧ repoInv (removeRepo s name) :=
  ⟨loadInitial_inv raw, addRepo_inv s name hs, setRepo_inv s r hr,
   removeRepo_inv s name hs⟩

/-- Witness for C8 at concrete inputs: a stored selection not in the
stored list falls back to the first stored repo, and the three operations
preserve the invariant from a concrete valid state. -/
theorem C8_selector_invariant_witness :
    repoInv (loadInitial (StoredRaw.stored ⟨["a/b", "c/d"], some "zzz"⟩)) ∧
    repoInv (addRepo ⟨["a/b", "c/d"], "c/d", ""⟩ "c/d") ∧
    repoInv (setRepo ⟨["a/b", "c/d"], "c/d", ""⟩ "a/b") ∧
    repoInv (removeRepo ⟨["a/b", "c/d"], "c/d", ""⟩ "c/d") :=
  C8_selector_invariant (StoredRaw.stored ⟨["a/b", "c/d"], some "zzz"⟩)
    ⟨["a/b", "c/d"], "c/d", ""⟩ "a/b" "c/d" (by decide) (by decide)

/-- C10: `addRepo` validates only that the trimmed name is non-empty, not
already listed, and contains at least one `/`; on any violation the whole
state (repos, selection, and the text input) is unchanged, and otherwise
the trimmed name is appended, selected, and the input cleared.  Any
string containing a `/` passes, whether or not it has the form
`owner/name`. -/
theorem C10_addRepo_validation (s : UIState) (name : String) :
    (¬ (jsTrim name = "" ∨ jsTrim name ∈ s.repos ∨
          ¬ ((jsTrim name).data.contains '/' = true)) →
      addRepo s name =
        { repos := s.repos ++ [jsTrim name], selectedRepo := jsTrim name, newRepo := "" }) ∧
    ((jsTrim name = "" ∨ jsTrim name ∈ s.repos ∨
          ¬ ((jsTrim name).data.contains '/' = true)) →
      addRepo s name = s) := by
  have hiff :
      (jsTrim name == "" || s.repos.contains (jsTrim name) ||
          !((jsTrim name).data.contains '/')) = true ↔
        (jsTrim name = "" ∨ jsTrim name ∈ s.repos ∨
          ¬ ((jsTrim name).data.contains '/' = true)) := by
    simp [List.elem_iff, or_assoc]
  constructor
  · intro h
    simp only [addRepo]
    rw [if_neg (fun hg => h (hiff.mp hg))]
  · intro h
    simp only [addRepo]
    rw [if_pos (hiff.mpr h)]

/-- Witness for C10: a trimmed string with slashes that is not of the
form `owner/name` is accepted, and a name without `/` is rejected with
the state unchanged. -/
theorem C10_addRepo_validation_witness :
    addRepo ⟨["a/b"], "a/b", "w"⟩ " x// " =
      { repos := ["a/b"] ++ [jsTrim " x// "], selectedRepo := jsTrim " x// ", newRepo := "" } ∧
    addRepo ⟨["a/b"], "a/b", "w"⟩ "ab" = ⟨["a/b"], "a/b", "w"⟩ :=
  ⟨(C10_addRepo_validation ⟨["a/b"], "a/b", "w"⟩ " x// ").1 (by decide),
   (C10_addRepo_validation ⟨["a/b"], "a/b", "w"⟩ "ab").2 (by decide)⟩

open AgentCore Budget SubdirTree

/-- Helper: a terminal state is returned unchanged by `step`; in
particular no tool call is issued from it. -/
theorem step_terminal (g : AgentState → LLMAction) (v : ToolInvocation → Bool)
    (e : ToolInvocation → ToolResult) (maxIter : Nat) (st : AgentState)
    (h : st.status ≠ Status.Running) : step g v e maxIter st = st := by
  simp [step, h]

/-- Helper: `run` leaves a terminal state unchanged. -/
theorem run_terminal (g : AgentState → LLMAction) (v : ToolInvocation → Bool)
    (e : ToolInvocation → ToolResult) (maxIter fuel : Nat) (st : AgentState)
    (h : st.status ≠ Status.Running) : run g v e maxIter fuel st = st := by
  cases fuel <;> simp [run, h]

/-- Helper: one loop step preserves the iteration-cap invariant. -/
theorem step_loopInv (g : AgentState → LLMAction) (v : ToolInvocation → Bool)
    (e : ToolInvocation → ToolResult) (maxIter : Nat) (st : AgentState)
    (h : loopInv maxIter st) : loopInv maxIter (step g v e maxIter st) := by
  by_cases hr : st.status = Status.Running
  · have hlt := h.2 hr
    simp only [step, hr]
    rw [if_neg (by simp)]
    split
    · refine ⟨h.1, fun hc => ?_⟩
      simp at hc
    · split
      · rename_i hle
        refine ⟨?_, fun hc => ?_⟩
        · show st.iteration + 1 ≤ maxIter
          omega
        · simp at hc
      · rename_i hle
        refine ⟨?_, fun _ => ?_⟩
        · show st.iteration + 1 ≤ maxIter
          omega
        · show st.iteration + 1 < maxIter
          omega
  · rw [step_terminal g v e maxIter st hr]
    exact h

/-- Helper: a step from a running state either leaves the running status
behind or increments the iteration count. -/
theorem step_progress (g : AgentState → LLMAction) (v : ToolInvocation → Bool)
    (e : ToolInvocation → ToolResult) (maxIter : Nat) (st : AgentState)
    (hr : st.status = Status.Running) :
    (step g v e maxIter st).status ≠ Status.Running ∨
    (step g v e maxIter st).iteration = st.iteration + 1 := by
  simp only [step, hr]
  rw [if_neg (by simp)]
  split
  · left
    simp
  · right
    split
    · rfl
    · rfl

/-- Helper: `run` preserves the iteration-cap invariant. -/
theorem run_loopInv (g : AgentState → LLMAction) (v : ToolInvocation → Bool)
    (e : ToolInvocation → ToolResult) (maxIter fuel : Nat) :
    ∀ st, loopInv maxIter st → loopInv maxIter (run g v e maxIter fuel st) := by
  induction fuel with
  | zero => intro st h; simpa [run] using h
  | succ n ih =>
      intro st h
      simp only [run]
      split
      · exact h
      · exact ih _ (step_loopInv g v e maxIter st h)

/-- Helper: with enough fuel, `run` always reaches a terminal status. -/
theorem run_reaches_terminal (g : AgentState → LLMAction) (v : ToolInvocation → Bool)
    (e : ToolInvocation → ToolResult) (maxIter : Nat) :
    ∀ fuel st, loopInv maxIter st → maxIter ≤ st.iteration + fuel →
      (run g v e maxIter fuel st).status ≠ Status.Running := by
  intro fuel
  induction fuel with
  | zero =>
      intro st h hle
      simp only [run]
      intro hr
      have := h.2 hr
      omega
  | succ n ih =>
      intro st h hle
      simp only [run]
      split
      · rename_i hne
        exact hne
      · rename_i hne
        have hr : st.status = Status.Running := not_not.mp hne
        rcases step_progress g v e maxIter st hr with hstop | hstep
        · rw [run_terminal g v e maxIter n _ hstop]
          exact hstop
        · exact ih (step g v e maxIter st) (step_loopInv g v e maxIter st h) (by omega)

/-- C5 (spec-modelled): for every gateway, validator, and tool executor,
the Reasoning Loop's final iteration count never exceeds the cap
`maxIter`, the loop always terminates within its bounded fuel in a
non-`Running` status (no unbounded execution), and a state whose status
is not `Running` is left untouched by `step`, so no further tool call is
issued. -/
theorem C5_loop_termination (gateway : AgentState → LLMAction)
    (validate : ToolInvocation → Bool) (exec : ToolInvocation → ToolResult)
    (maxIter : Nat) (st : AgentState) (hpos : 0 < maxIter)
    (hterm : st.status ≠ Status.Running) :
    (runLoop gateway validate exec maxIter).iteration ≤ maxIter ∧
    (runLoop gateway validate exec maxIter).status ≠ Status.Running ∧
    step gateway validate exec maxIter st = st := by
  have hinv : loopInv maxIter initialState := ⟨Nat.zero_le _, fun _ => hpos⟩
  unfold runLoop
  refine ⟨(run_loopInv gateway validate exec maxIter maxIter initialState hinv).1, ?_,
          step_terminal gateway validate exec maxIter st hterm⟩
  exact run_reaches_terminal gateway validate exec maxIter maxIter initialState hinv
    (by simp [initialState])

/-- Witness for C5: a gateway that always asks for another tool call is
stopped by the cap, and a finished state is left untouched. -/
theorem C5_loop_termination_witness :
    (runLoop (fun _ => LLMAction.toolCall ⟨"github_repo_info", "{}"⟩)
        (fun _ => true) (fun _ => ⟨true, "ok", false⟩) 2).iteration ≤ 2 ∧
    (runLoop (fun _ => LLMAction.toolCall ⟨"github_repo_info", "{}"⟩)
        (fun _ => true) (fun _ => ⟨true, "ok", false⟩) 2).status ≠ Status.Running ∧
    step (fun _ => LLMAction.toolCall ⟨"github_repo_info", "{}"⟩)
        (fun _ => true) (fun _ => ⟨true, "ok", false⟩) 2
        ⟨1, [], Status.Finished⟩ = ⟨1, [], Status.Finished⟩ :=
  C5_loop_termination (fun _ => LLMAction.toolCall ⟨"github_repo_info", "{}"⟩)
    (fun _ => true) (fun _ => ⟨true, "ok", false⟩) 2
    ⟨1, [], Status.Finished⟩ (by decide) (by decide)

/-- Helper: the truncated history always fits the given budget. -/
theorem truncateHistory_le (budget : Nat) (ts : List String) :
    totalEstimate (truncateHistory budget ts) ≤ budget := by
  induction ts with
  | nil => simp [truncateHistory, totalEstimate]
  | cons t rest ih =>
      simp only [truncateHistory]
      split
      · rename_i hfit
        exact hfit
      · exact ih

/-- C6 (spec-modelled): whenever the untruncatable parts of the prompt
(system instructions, tool catalog, current question) fit the budget, the
prompt the Context Budget Manager assembles satisfies
`used ≤ ceiling − reserve-for-answer`, for EVERY input history, including
histories that would on their own overflow the budget. -/
theorem C6_budget_guarantee (b : PromptBudget) (base : Nat)
    (history : List String) (hbase : base ≤ b.ceiling - b.reserve) :
    assemble b base history ≤ b.ceiling - b.reserve := by
  have h := truncateHistory_le (b.ceiling - b.reserve - base) history
  unfold assemble
  omega

/-- Witness for C6 on a history that would otherwise overflow: ceiling
20, reserve 5, base 5, and a 40-character turn whose estimate alone
exceeds the remaining budget. -/
theorem C6_budget_guarantee_witness :
    assemble ⟨20, 5⟩ 5 ["0123456789012345678901234567890123456789", "q2"] ≤ 15 :=
  C6_budget_guarantee ⟨20, 5⟩ 5
    ["0123456789012345678901234567890123456789", "q2"] (by decide)

mutual

/-- Helper: rendering a subtree spends exactly one budget unit per
rendered line. -/
theorem renderTree_count (b : Nat) (t : FsTree) :
    (renderTree b t).lines.length + (renderTree b t).remaining = b := by
  cases t with
  | node name c =>
      cases b with
      | zero => simp [renderTree]
      | succ n =>
          have h := renderForest_count n c
          simp only [renderTree, List.length_cons]
          omega

/-- Helper: rendering a forest spends exactly one budget unit per
rendered line. -/
theorem renderForest_count (b : Nat) (f : FsForest) :
    (renderForest b f).lines.length + (renderForest b f).remaining = b := by
  cases f with
  | leaf => simp [renderForest]
  | cons t ts =>
      have h1 := renderTree_count b t
      simp only [renderForest]
      split
      · exact h1
      · have h2 := renderForest_count (renderTree b t).remaining ts
        simp only [List.length_append]
        omega

end

mutual

/-- Helper: an untruncated subtree render contains every node. -/
theorem renderTree_complete (b : Nat) (t : FsTree)
    (h : (renderTree b t).truncated = false) :
    (renderTree b t).lines.length = treeSize t := by
  cases t with
  | node name c =>
      cases b with
      | zero => simp [renderTree] at h
      | succ n =>
          simp only [renderTree] at h ⊢
          have := renderForest_complete n c h
          simp only [List.length_cons, treeSize]
          omega

/-- Helper: an untruncated forest render contains every node. -/
theorem renderForest_complete (b : Nat) (f : FsForest)
    (h : (renderForest b f).truncated = false) :
    (renderForest b f).lines.length = forestSize f := by
  cases f with
  | leaf => simp [renderForest, forestSize]
  | cons t ts =>
      by_cases htr : (renderTree b t).truncated = true
      · simp [renderForest, htr] at h
      · simp only [Bool.not_eq_true] at htr
        simp only [renderForest, htr, Bool.false_eq_true, if_false] at h ⊢
        have h1 := renderTree_complete b t htr
        have h2 := renderForest_complete (renderTree b t).remaining ts h
        simp only [List.length_append, forestSize]
        omega

end

/-- C7 (spec-modelled): a subdir-tree call on a subtree with more nodes
than the threshold returns a successful partial result, marked
`truncated`, whose rendered node count is at or below the threshold. -/
theorem C7_subdir_guard (threshold : Nat) (t : FsTree)
    (h : threshold < treeSize t) :
    (subdirTree threshold t).success = true ∧
    (subdirTree threshold t).truncated = true ∧
    (subdirTree threshold t).lines.length ≤ threshold := by
  have hc := renderTree_count threshold t
  refine ⟨rfl, ?_, by simp only [subdirTree]; omega⟩
  simp only [subdirTree]
  by_contra htr
  simp only [Bool.not_eq_true] at htr
  have := renderTree_complete threshold t htr
  omega

/-- Witness for C7: a three-node subtree rendered with threshold 2. -/
theorem C7_subdir_guard_witness :
    (subdirTree 2 (FsTree.node "root"
        (FsForest.cons (FsTree.node "a" FsForest.leaf)
          (FsForest.cons (FsTree.node "b" FsForest.leaf) FsForest.leaf)))).success = true ∧
    (subdirTree 2 (FsTree.node "root"
        (FsForest.cons (FsTree.node "a" FsForest.leaf)
          (FsForest.cons (FsTree.node "b" FsForest.leaf) FsForest.leaf)))).truncated = true ∧
    (subdirTree 2 (FsTree.node "root"
        (FsForest.cons (FsTree.node "a" FsForest.leaf)
          (FsForest.cons (FsTree.node "b" FsForest.leaf) FsForest.leaf)))).lines.length ≤ 2 :=
  C7_subdir_guard 2 (FsTree.node "root"
      (FsForest.cons (FsTree.node "a" FsForest.leaf)
        (FsForest.cons (FsTree.node "b" FsForest.leaf) FsForest.leaf)))
    (by simp [treeSize, forestSize])
